import Mathlib

/-!
Verification of the frame-sampling / detection-aggregation pipeline of the
`structured_template` repository (video inventory counting dashboard).

The Python sources are shallowly embedded:
* floats that hold frame rates, timestamps, scores and averages are modelled
  as rationals (`ℚ`);
* Python `int()` truncation and `round()` banker's rounding are modelled
  explicitly on `ℚ`;
* the OpenCV capture handle is modelled as a `VideoSource` record; a frame
  read at position `n` succeeds exactly when `0 ≤ n < total_frames`
  (an ideally behaved decoder);
* raised exceptions are modelled with `Except String`;
* JSON payloads of the remote detector are modelled by the inductive `JVal`,
  with Python dicts as association lists in insertion order;
* the relational store is modelled as in-memory lists of committed rows,
  with an explicit failure-injection point for each `commit()` call.
-/

/-- Python `int(q)`: truncation toward zero. -/
def pyInt (q : ℚ) : ℤ := if 0 ≤ q then ⌊q⌋ else ⌈q⌉

/-- Python `round(q)` for a real-valued argument: round half to even
(banker's rounding). -/
def pyRound (q : ℚ) : ℤ :=
  if q - ⌊q⌋ < 1/2 then ⌊q⌋
  else if 1/2 < q - ⌊q⌋ then ⌊q⌋ + 1
  else if Even ⌊q⌋ then ⌊q⌋ else ⌊q⌋ + 1

/-- A video source as seen through `cv2.VideoCapture`:
whether `isOpened()` holds, the reported `CAP_PROP_FPS`, and the reported
`CAP_PROP_FRAME_COUNT` (already converted with `int(...)`). -/
structure VideoSource where
  opened : Bool
  fps : ℚ
  total_frames : ℕ
deriving Repr, DecidableEq

/-- One element of the `frames_data` list built by
`VideoProcessor.extract_frames` (the pixel payload is irrelevant to the
claims and omitted). -/
structure FrameData where
  frame_index : ℤ
  timestamp : ℚ
deriving Repr, DecidableEq

/-- The `while True` loop of `VideoProcessor.extract_frames`
(src/video_processor.py lines 44-67), as a fuel-indexed function on the
current `frame_number`.  Each iteration: read the frame at the current
position (succeeds iff the position is a valid index), record the index,
advance by `step`, and stop once the advanced index reaches `total`.
The fuel argument only bounds the number of iterations; the Python loop
has no such bound (see `loopExits` for its exit behaviour). -/
def sampleLoop (total : ℕ) (step : ℤ) : ℕ → ℤ → List ℤ
  | 0, _ => []
  | fuel + 1, n =>
    if 0 ≤ n ∧ n < (total : ℤ) then
      n :: (if (total : ℤ) ≤ n + step then [] else sampleLoop total step fuel (n + step))
    else []

/-- `frame_number` after `k` iterations of the loop body
(`frame_number += frame_interval`, starting from 0). -/
def loopIndex (step : ℤ) : ℕ → ℤ
  | 0 => 0
  | k + 1 => loopIndex step k + step

/-- The loop of `extract_frames` exits: at some iteration either the
`cap.read()` at the current position fails, or the advanced position
reaches `total_frames`.  If no iteration satisfies this, the Python loop
runs forever. -/
def loopExits (total : ℕ) (step : ℤ) : Prop :=
  ∃ k : ℕ, ¬(0 ≤ loopIndex step k ∧ loopIndex step k < (total : ℤ)) ∨
    (total : ℤ) ≤ loopIndex step k + step

/-- `VideoProcessor.extract_frames` (src/video_processor.py lines 12-76).
Returns `[]` when the source cannot be opened; computes
`frame_interval = int(fps * interval_seconds)` and samples the loop.
When `fps = 0` and the source has frames, the Python code raises
`ZeroDivisionError` at `timestamp = frame_number / fps`, which the
enclosing `except` turns into `[]`; when `fps = 0` and there are no
frames the loop exits at once with `[]` — both cases return `[]`, which
the `fps = 0` guard reproduces.  The fuel `total_frames + 1` is enough
for every terminating run (step ≥ 1). -/
def extract_frames (src : VideoSource) (interval_seconds : ℚ) : List FrameData :=
  if ¬src.opened then []
  else if src.fps = 0 then []
  else
    let frame_interval := pyInt (src.fps * interval_seconds)
    (sampleLoop src.total_frames frame_interval (src.total_frames + 1) 0).map
      (fun n => { frame_index := n, timestamp := (n : ℚ) / src.fps })

/-- The sequence of frame indices emitted by a sampling run. -/
def emittedIndices (src : VideoSource) (interval_seconds : ℚ) : List ℤ :=
  (extract_frames src interval_seconds).map FrameData.frame_index

/-- Ceiling division on naturals, `(d + s - 1) / s`: the number of loop
iterations `⌈d / s⌉` a terminating sampling run performs over `d`
remaining frames with step `s`. -/
def ceilDiv (d s : ℕ) : ℕ := (d + s - 1) / s

/-- The arithmetic progression `n, n + s, …` of length `k`, as integers. -/
def arithZ (n s k : ℕ) : List ℤ := (List.range k).map (fun i => ((n + i * s : ℕ) : ℤ))

/-- One detection record as produced by `LandingAIClient.detect_objects`
and consumed downstream.  Consumers read the keys with `dict.get` and a
default, so the optional fields model a possibly missing key:
`score` (read via `d.get('score', 0)` in src/utils.py and
src/database.py), `bounding_box` (read via `d.get('bounding_box', [])`),
and `bbox` (read via `d.get('bbox', [])` in src/database.py — a key the
detector never writes). -/
structure Detection where
  label : String
  score : Option ℚ
  bounding_box : Option (List ℤ)
  bbox : Option (List ℤ)
deriving Repr, DecidableEq

/-- Whether an `Except` result is a success. -/
def isOkE {ε α : Type} : Except ε α → Bool
  | .ok _ => true
  | .error _ => false

/-- One element of the in-session `results` list built by the analysis
loops in src/app.py (the raw pixel `frame` entry is omitted). -/
structure ResultRow where
  frame_index : ℕ
  timestamp : ℚ
  detections : List Detection
  medibox_count : ℕ
deriving Repr, DecidableEq

/-- The loop body of `analyze_video` for one frame
(src/app.py lines 352-373): on success a row with the detections and
their count (`len(detections) if detections else 0` equals
`len(detections)`); on failure a zero-count row with an empty
detections list.  `i` is the enumeration index (which the app stores as
`frame_index`, not the sampled video frame number). -/
def rowFor (detect : ℕ → FrameData → Except String (List Detection))
    (i : ℕ) (fd : FrameData) : ResultRow :=
  match detect i fd with
  | .ok dets =>
      { frame_index := i, timestamp := fd.timestamp,
        detections := dets, medibox_count := dets.length }
  | .error _ =>
      { frame_index := i, timestamp := fd.timestamp,
        detections := [], medibox_count := 0 }

/-- The per-frame loop of `analyze_video` (src/app.py lines 344-376):
each frame's detection call is guarded by `try/except`; a failure is
replaced by a zero-count row and the loop continues. -/
def analyzeFramesLoop (detect : ℕ → FrameData → Except String (List Detection)) :
    ℕ → List FrameData → List ResultRow
  | _, [] => []
  | i, fd :: rest => rowFor detect i fd :: analyzeFramesLoop detect (i + 1) rest

/-- `analyze_video` (src/app.py lines 313-403) up to the in-session
results: an empty `frames_data` is reported as an error; otherwise every
frame is processed, degrading individual failures to zero-count rows. -/
def analyze_video (frames_data : List FrameData)
    (detect : ℕ → FrameData → Except String (List Detection)) :
    Except String (List ResultRow) :=
  if frames_data.isEmpty then .error "Failed to extract frames from video."
  else .ok (analyzeFramesLoop detect 0 frames_data)

/-- The per-frame loop of `analyze_sample_video` (src/app.py lines
431-454): the detection call is NOT wrapped in `try/except`, so the
first failure propagates and aborts the whole loop, discarding all rows
built so far. -/
def analyzeSampleLoop (detect : ℕ → FrameData → Except String (List Detection)) :
    ℕ → List FrameData → Except String (List ResultRow)
  | _, [] => .ok []
  | i, fd :: rest => do
      let dets ← detect i fd
      let rows ← analyzeSampleLoop detect (i + 1) rest
      Except.ok ({ frame_index := i, timestamp := fd.timestamp,
                   detections := dets, medibox_count := dets.length } :: rows)

/-- `analyze_sample_video` (src/app.py lines 405-509) up to the
in-session results: empty `frames_data` is an error; any per-frame
detection failure reaches the outer `except` and fails the run. -/
def analyze_sample_video (frames_data : List FrameData)
    (detect : ℕ → FrameData → Except String (List Detection)) :
    Except String (List ResultRow) :=
  if frames_data.isEmpty then .error "Could not extract frames from sample video."
  else analyzeSampleLoop detect 0 frames_data

/-- One element of the `results` list as consumed by
`save_analysis_results` (src/database.py lines 99-107): the keys it
reads are `frame_number`, `timestamp`, `medibox_count` and `detections`. -/
structure SaveRec where
  frame_number : ℕ
  timestamp : ℚ
  medibox_count : ℕ
  detections : List Detection
deriving Repr, DecidableEq

/-- The five derived summary fields of an analysis run. -/
structure AnalysisSummary where
  total_frames : ℕ
  total_detections : ℕ
  avg_per_frame : ℚ
  max_in_frame : ℕ
  min_in_frame : ℕ
deriving Repr, DecidableEq

/-- Python `max(l)` on a nonempty list, with the `else 0` default the
caller supplies for the empty case. -/
def pyMaxList : List ℕ → ℕ
  | [] => 0
  | h :: t => t.foldl max h

/-- Python `min(l)` on a nonempty list, with the `else 0` default the
caller supplies for the empty case. -/
def pyMinList : List ℕ → ℕ
  | [] => 0
  | h :: t => t.foldl min h

/-- The aggregation step of `save_analysis_results`
(src/database.py lines 73-78). -/
def summaryOf (results : List SaveRec) : AnalysisSummary :=
  { total_frames := results.length
    total_detections := (results.map SaveRec.medibox_count).sum
    avg_per_frame :=
      if 0 < results.length then
        ((results.map SaveRec.medibox_count).sum : ℚ) / (results.length : ℚ)
      else 0
    max_in_frame := pyMaxList (results.map SaveRec.medibox_count)
    min_in_frame := pyMinList (results.map SaveRec.medibox_count) }

/-- A committed row of the `video_analyses` table (src/database.py
lines 18-32); `created_at` is a wall-clock default and omitted. -/
structure ParentRow where
  id : ℕ
  filename : String
  file_size_mb : ℚ
  frame_interval : ℕ
  total_frames : ℕ
  total_detections : ℕ
  avg_per_frame : ℚ
  max_in_frame : ℕ
  min_in_frame : ℕ
  analysis_results : List SaveRec
  processing_time_seconds : ℚ
deriving Repr, DecidableEq

/-- A committed row of the `frame_detections` table (src/database.py
lines 34-44). -/
structure ChildRow where
  video_analysis_id : ℕ
  frame_number : ℕ
  timestamp_seconds : ℚ
  medibox_count : ℕ
  confidence_scores : List ℚ
  bounding_boxes : List (List ℤ)
deriving Repr, DecidableEq

/-- The committed database state: rows in insertion order plus the next
autoincrement primary key of `video_analyses`. -/
structure DB where
  parents : List ParentRow
  children : List ChildRow
  nextId : ℕ
deriving Repr, DecidableEq

/-- The failure points of `save_analysis_results`: the first `commit()`
(line 95, parent row) or the second `commit()` (line 110, child rows).
`rollback()` discards only what the failing transaction staged. -/
inductive SaveFailure where
  | atParentCommit
  | atChildrenCommit
deriving Repr, DecidableEq

/-- The child row built for one frame result (src/database.py lines
100-107).  `d.get('score', 0)` and `d.get('bbox', [])` read optional
keys with defaults; the detector writes `bounding_box`, never `bbox`,
so the stored box list of each detection is the default `[]`. -/
def childOf (vid : ℕ) (r : SaveRec) : ChildRow :=
  { video_analysis_id := vid
    frame_number := r.frame_number
    timestamp_seconds := r.timestamp
    medibox_count := r.medibox_count
    confidence_scores := r.detections.map (fun d => d.score.getD 0)
    bounding_boxes := r.detections.map (fun d => d.bbox.getD []) }

/-- The parent row built by `save_analysis_results`
(src/database.py lines 81-92). -/
def parentRowOf (vid : ℕ) (filename : String) (file_size_mb : ℚ)
    (frame_interval : ℕ) (results : List SaveRec) (processing_time : Option ℚ) :
    ParentRow :=
  { id := vid
    filename := filename
    file_size_mb := file_size_mb
    frame_interval := frame_interval
    total_frames := (summaryOf results).total_frames
    total_detections := (summaryOf results).total_detections
    avg_per_frame := (summaryOf results).avg_per_frame
    max_in_frame := (summaryOf results).max_in_frame
    min_in_frame := (summaryOf results).min_in_frame
    analysis_results := results
    processing_time_seconds := processing_time.getD 0 }

/-- `save_analysis_results` (src/database.py lines 58-117) with an
explicit failure-injection point.  The function commits TWICE: first the
parent summary row (to obtain its generated id), then the per-frame
child rows.  A failure at the first commit rolls back everything; a
failure at the second commit rolls back only the staged children — the
parent row was already durably committed. -/
def save_analysis_results (db : DB) (filename : String) (file_size_mb : ℚ)
    (frame_interval : ℕ) (results : List SaveRec) (processing_time : Option ℚ)
    (failAt : Option SaveFailure) : Except String ℕ × DB :=
  if failAt = some .atParentCommit then
    (.error "PersistenceError", db)
  else
    let vid := db.nextId
    let parent := parentRowOf vid filename file_size_mb frame_interval results processing_time
    let db1 : DB := { parents := db.parents ++ [parent], children := db.children, nextId := vid + 1 }
    if failAt = some .atChildrenCommit then
      (.error "PersistenceError", db1)
    else
      (.ok vid, { db1 with children := db.children ++ results.map (childOf vid) })

/-- `get_analysis_by_id` (src/database.py lines 127-133):
`filter(id == analysis_id).first()`. -/
def get_analysis_by_id (db : DB) (analysis_id : ℕ) : Option ParentRow :=
  db.parents.find? (fun p => p.id == analysis_id)

/-- The `db_results` conversion in `analyze_sample_video`
(src/app.py lines 468-477): the in-session row minus the raw frame.
The app stores the enumeration index under the key `frame_index`; this
embedding feeds it to the store's `frame_number` field (the dict-level
key names are not modelled). -/
def toSaveRec (r : ResultRow) : SaveRec :=
  { frame_number := r.frame_index
    timestamp := r.timestamp
    medibox_count := r.medibox_count
    detections := r.detections }

/-- The sample-video pipeline of src/app.py: extract frames, analyze
them (aborting on the first per-frame failure), then attempt to persist;
a persistence failure is only warned about and does not fail the run. -/
def run_sample_pipeline (src : VideoSource) (interval_seconds : ℚ)
    (filename : String) (file_size_mb : ℚ) (frame_interval : ℕ)
    (detect : ℕ → FrameData → Except String (List Detection))
    (db : DB) (failAt : Option SaveFailure) :
    Except String (List ResultRow) × DB :=
  match analyze_sample_video (extract_frames src interval_seconds) detect with
  | .error e => (.error e, db)
  | .ok rows =>
      (.ok rows,
        (save_analysis_results db filename file_size_mb frame_interval
          (rows.map toSaveRec) none failAt).2)

/-- A CSV cell: the exporter writes numbers and strings; their textual
rendering by Python's `csv` module is presentation and not modelled. -/
inductive Cell where
  | nat : ℕ → Cell
  | int : ℤ → Cell
  | rat : ℚ → Cell
  | str : String → Cell
deriving Repr, DecidableEq

/-- Zero-padded two-digit rendering (`f"{n:02d}"` for the values that
occur here). -/
def pad2 (n : ℤ) : String :=
  if 0 ≤ n ∧ n < 10 then "0" ++ toString n else toString n

/-- Three-digit zero padding for the fractional part of `fmt3`. -/
def pad3 (n : ℕ) : String :=
  if n < 10 then "00" ++ toString n
  else if n < 100 then "0" ++ toString n
  else toString n

/-- `format_timestamp` (src/utils.py lines 30-49): truncate to whole
seconds and render `MM:SS`, or `HH:MM:SS` once there are hours. -/
def format_timestamp (seconds : ℚ) : String :=
  let k := pyInt seconds
  let hours := k.ediv 3600
  let minutes := (k.emod 3600).ediv 60
  let secs := k.emod 60
  if 0 < hours then pad2 hours ++ ":" ++ pad2 minutes ++ ":" ++ pad2 secs
  else pad2 minutes ++ ":" ++ pad2 secs

/-- Python `f"{q:.3f}"`: fixed-point with three decimals, rounding the
(here exact) value half to even. -/
def fmt3 (q : ℚ) : String :=
  let m := pyRound (q * 1000)
  (if m < 0 then "-" else "") ++ toString (m.natAbs / 1000) ++ "." ++ pad3 (m.natAbs % 1000)

/-- One element of the `results` list as consumed by
`export_results_to_csv` (src/utils.py lines 239-252): the keys it reads
are `frame_index`, `timestamp`, `playdough_count` and `detections`. -/
structure ExportRec where
  frame_index : ℕ
  timestamp : ℚ
  playdough_count : ℕ
  detections : List Detection
deriving Repr, DecidableEq

/-- The header row written by `export_results_to_csv`
(src/utils.py lines 230-236). -/
def exportHeader : List Cell :=
  [.str "Frame_Index", .str "Timestamp_Seconds", .str "Timestamp_Formatted",
   .str "Playdough_Count", .str "Detection_Details"]

/-- The detail fragment for one detection (src/utils.py line 244):
`bounding_box` positions 0-3 are indexed unconditionally, so a box with
fewer than 4 elements raises `IndexError`; a missing score defaults
to 0. -/
def detailOfDet (i : ℕ) (d : Detection) : Except String String :=
  let bbox := d.bounding_box.getD []
  match bbox.get? 0, bbox.get? 1, bbox.get? 2, bbox.get? 3 with
  | some b0, some b1, some b2, some b3 =>
      .ok ("Object_" ++ toString (i + 1) ++ ":(" ++ toString b0 ++ "," ++ toString b1
        ++ "," ++ toString b2 ++ "," ++ toString b3 ++ "):conf_" ++ fmt3 (d.score.getD 0))
  | _, _, _, _ => .error "IndexError: list index out of range"

/-- The `for i, det in enumerate(...)` loop building `detection_details`
(src/utils.py lines 240-244). -/
def detailsFrom (i : ℕ) : List Detection → Except String (List String)
  | [] => .ok []
  | d :: rest => do
      let s ← detailOfDet i d
      let t ← detailsFrom (i + 1) rest
      Except.ok (s :: t)

/-- One data row written by `export_results_to_csv`
(src/utils.py lines 246-252). -/
def rowOfExportRec (r : ExportRec) : Except String (List Cell) := do
  let details ← detailsFrom 0 r.detections
  Except.ok [Cell.nat r.frame_index, Cell.rat r.timestamp,
    Cell.str (format_timestamp r.timestamp), Cell.nat r.playdough_count,
    Cell.str (String.intercalate ";" details)]

/-- The data-row loop of `export_results_to_csv`. -/
def rowsOf : List ExportRec → Except String (List (List Cell))
  | [] => .ok []
  | r :: rest => do
      let row ← rowOfExportRec r
      let rows ← rowsOf rest
      Except.ok (row :: rows)

/-- `export_results_to_csv` (src/utils.py lines 213-254), as the list of
CSV rows it writes: the header followed by one row per frame result. -/
def export_results_to_csv (results : List ExportRec) : Except String (List (List Cell)) := do
  let rows ← rowsOf results
  Except.ok (exportHeader :: rows)

/-- A concrete detection used in witnesses: a labelled box with a score. -/
def sampleDetection : Detection :=
  { label := "medibox", score := some (1/2), bounding_box := some [1, 2, 3, 4], bbox := none }

/-- Scenario A of the spec: a 30-second video at 30 fps (900 frames),
sampled every 5 seconds. -/
def scenarioSrc : VideoSource :=
  { opened := true, fps := 30, total_frames := 900 }

/-- Scenario D of the spec: frame counts [2, 0, 3, 1]. -/
def scenarioD : List SaveRec :=
  [ { frame_number := 0, timestamp := 0, medibox_count := 2, detections := [] },
    { frame_number := 1, timestamp := 5, medibox_count := 0, detections := [] },
    { frame_number := 2, timestamp := 10, medibox_count := 3, detections := [] },
    { frame_number := 3, timestamp := 15, medibox_count := 1, detections := [] } ]

theorem loopIndex_eq (step : ℤ) (k : ℕ) : loopIndex step k = k * step := by
  induction k with
  | zero => simp [loopIndex]
  | succ k ih => simp [loopIndex, ih, add_mul]

theorem pyInt_nonneg_eq_floor (q : ℚ) (h : 0 ≤ q) : pyInt q = ⌊q⌋ := by
  simp [pyInt, h]

theorem one_le_pyInt_of_one_le (q : ℚ) (h : 1 ≤ q) : 1 ≤ pyInt q := by
  rw [pyInt_nonneg_eq_floor q (le_trans zero_le_one h)]
  exact_mod_cast Int.le_floor.mpr (by exact_mod_cast h)

theorem pyInt_eq_zero_of_lt_one (q : ℚ) (h0 : 0 ≤ q) (h1 : q < 1) :
    pyInt q = 0 := by
  rw [pyInt_nonneg_eq_floor q h0]
  exact Int.floor_eq_zero_iff.mpr ⟨h0, h1⟩

theorem loopExits_of_one_le_step (total : ℕ) (step : ℤ) (h : 1 ≤ step) :
    loopExits total step := by
  refine ⟨total, Or.inr ?_⟩
  rw [loopIndex_eq]
  have h1 : (total : ℤ) ≤ (total : ℤ) * step := le_mul_of_one_le_right (by positivity) h
  have h2 : (0 : ℤ) ≤ step := le_trans zero_le_one h
  omega

theorem not_loopExits_of_step_zero (total : ℕ) (h : 1 ≤ total) :
    ¬ loopExits total 0 := by
  rintro ⟨k, hk⟩
  rw [loopIndex_eq] at hk
  rcases hk with hk | hk
  · exact hk ⟨by simp, by simpa using (by exact_mod_cast h : (1 : ℤ) ≤ (total : ℤ))⟩
  · simp at hk
    omega

theorem arithZ_zero (n s : ℕ) : arithZ n s 0 = [] := by simp [arithZ]

theorem arithZ_succ (n s k : ℕ) :
    arithZ n s (k + 1) = ((n : ℕ) : ℤ) :: arithZ (n + s) s k := by
  unfold arithZ
  rw [List.range_succ_eq_map]
  simp only [List.map_cons, List.map_map, Nat.zero_mul, Nat.add_zero]
  refine congrArg _ ?_
  refine List.map_congr_left ?_
  intro i _
  simp only [Function.comp]
  push_cast
  ring

theorem ceilDiv_eq_zero (d s : ℕ) (_hs : 1 ≤ s) (hd : d = 0) : ceilDiv d s = 0 := by
  subst hd
  unfold ceilDiv
  exact Nat.div_eq_of_lt (by omega)

theorem ceilDiv_pos (d s : ℕ) (hs : 1 ≤ s) (hd : 1 ≤ d) : 1 ≤ ceilDiv d s := by
  unfold ceilDiv
  rw [Nat.le_div_iff_mul_le (by omega : 0 < s)]
  omega

theorem ceilDiv_eq_one (d s : ℕ) (_hs : 1 ≤ s) (hd1 : 1 ≤ d) (hd2 : d ≤ s) :
    ceilDiv d s = 1 := by
  unfold ceilDiv
  exact Nat.div_eq_of_lt_le (by omega) (by omega)

theorem ceilDiv_succ (d s : ℕ) (hs : 1 ≤ s) (hd : s < d) :
    ceilDiv d s = ceilDiv (d - s) s + 1 := by
  unfold ceilDiv
  have h : d + s - 1 = ((d - s) + s - 1) + s := by omega
  rw [h, Nat.add_div_right _ (by omega)]

/-- Closed form of the `extract_frames` loop for a positive step: with
enough fuel, starting at index `n` it emits the arithmetic progression
`n, n + s, …` of length `⌈(total - n) / s⌉`. -/
theorem sampleLoop_eq_arithZ (total s : ℕ) (hs : 1 ≤ s) :
    ∀ (fuel n : ℕ), total ≤ n + fuel * s →
      sampleLoop total (s : ℤ) fuel (n : ℤ) = arithZ n s (ceilDiv (total - n) s) := by
  intro fuel
  induction fuel with
  | zero =>
    intro n h
    simp only [Nat.zero_mul, Nat.add_zero] at h
    rw [ceilDiv_eq_zero _ _ hs (by omega), arithZ_zero]
    rfl
  | succ fuel ih =>
    intro n h
    by_cases hn : n < total
    · have hcond : (0 : ℤ) ≤ (n : ℤ) ∧ (n : ℤ) < (total : ℤ) :=
        ⟨Int.natCast_nonneg n, by exact_mod_cast hn⟩
      rw [sampleLoop, if_pos hcond]
      by_cases hend : total ≤ n + s
      · have hz : (total : ℤ) ≤ (n : ℤ) + (s : ℤ) := by exact_mod_cast hend
        rw [if_pos hz, ceilDiv_eq_one _ _ hs (by omega) (by omega), arithZ_succ, arithZ_zero]
      · push_neg at hend
        have hz : ¬ ((total : ℤ) ≤ (n : ℤ) + (s : ℤ)) := by
          push_neg
          exact_mod_cast hend
        rw [if_neg hz]
        have hfuel : total ≤ (n + s) + fuel * s := by
          rw [Nat.succ_mul] at h
          omega
        have hrec := ih (n + s) hfuel
        have hcast : (n : ℤ) + (s : ℤ) = ((n + s : ℕ) : ℤ) := by push_cast; ring
        have hsplit : ceilDiv (total - n) s = ceilDiv (total - (n + s)) s + 1 := by
          rw [ceilDiv_succ (total - n) s hs (by omega)]
          congr 2
          omega
        rw [hcast, hrec, hsplit, arithZ_succ]
    · have hcond : ¬ ((0 : ℤ) ≤ (n : ℤ) ∧ (n : ℤ) < (total : ℤ)) := by
        push_neg
        intro _
        exact_mod_cast Nat.not_lt.mp hn
      rw [sampleLoop, if_neg hcond, ceilDiv_eq_zero _ _ hs (by omega), arithZ_zero]

/-- The emitted frame indices of a successful run (positive step): the
arithmetic progression of multiples of the step below `total_frames`. -/
theorem extract_frames_indices (src : VideoSource) (interval : ℚ)
    (hop : src.opened = true) (hfps : src.fps ≠ 0)
    (hstep : 1 ≤ pyInt (src.fps * interval)) :
    emittedIndices src interval =
      arithZ 0 (pyInt (src.fps * interval)).toNat
        (ceilDiv src.total_frames (pyInt (src.fps * interval)).toNat) := by
  set s : ℕ := (pyInt (src.fps * interval)).toNat with hsdef
  have hs1 : 1 ≤ s := by omega
  have hscast : pyInt (src.fps * interval) = (s : ℤ) := by
    rw [hsdef, Int.toNat_of_nonneg (by omega)]
  unfold emittedIndices extract_frames
  rw [if_neg (by simp [hop]), if_neg hfps, hscast]
  rw [List.map_map]
  have hfuel : src.total_frames ≤ 0 + (src.total_frames + 1) * s := by
    have := Nat.le_mul_of_pos_right (src.total_frames + 1) (by omega : 0 < s)
    omega
  have := sampleLoop_eq_arithZ src.total_frames s hs1 (src.total_frames + 1) 0 hfuel
  rw [show ((0 : ℕ) : ℤ) = (0 : ℤ) by simp] at this
  rw [this]
  simp [Function.comp_def]

theorem lt_ceilDiv_iff (total s i : ℕ) (hs : 1 ≤ s) :
    i < ceilDiv total s ↔ i * s < total := by
  unfold ceilDiv
  rw [Nat.lt_iff_add_one_le, Nat.le_div_iff_mul_le (by omega : 0 < s), add_mul, one_mul]
  omega

/-- Membership in the emitted index progression: exactly the nonnegative
multiples of the step strictly below `total`. -/
theorem mem_arithZ_iff (total s : ℕ) (hs : 1 ≤ s) (j : ℤ) :
    j ∈ arithZ 0 s (ceilDiv total s) ↔
      0 ≤ j ∧ j < (total : ℤ) ∧ ((s : ℕ) : ℤ) ∣ j := by
  unfold arithZ
  simp only [List.mem_map, List.mem_range, Nat.zero_add]
  constructor
  · rintro ⟨i, hi, rfl⟩
    rw [lt_ceilDiv_iff total s i hs] at hi
    refine ⟨Int.natCast_nonneg _, by exact_mod_cast hi, ?_⟩
    push_cast
    exact dvd_mul_left _ _
  · rintro ⟨h0, hlt, c, rfl⟩
    have hc0 : 0 ≤ c := by
      by_contra hneg
      push_neg at hneg
      have hs0 : (0 : ℤ) < (s : ℤ) := by exact_mod_cast hs
      nlinarith
    refine ⟨c.toNat, ?_, ?_⟩
    · rw [lt_ceilDiv_iff total s c.toNat hs]
      have : ((c.toNat * s : ℕ) : ℤ) < (total : ℤ) := by
        push_cast
        rw [Int.toNat_of_nonneg hc0]
        linarith [hlt]
      exact_mod_cast this
    · push_cast
      rw [Int.toNat_of_nonneg hc0]
      ring

/-- The emitted index progression is strictly increasing. -/
theorem arithZ_chain (n s k : ℕ) (hs : 1 ≤ s) :
    List.Chain' (· < ·) (arithZ n s k) := by
  apply List.Pairwise.chain'
  unfold arithZ
  rw [List.pairwise_map]
  refine (List.pairwise_lt_range k).imp ?_
  intro a b hab
  have h1 : (a + 1) * s ≤ b * s := Nat.mul_le_mul_right s hab
  have h2 : a * s + s = (a + 1) * s := by ring
  exact_mod_cast (by omega : n + a * s < n + b * s)

theorem arithZ_head (s k : ℕ) (hk : 1 ≤ k) : (arithZ 0 s k).head? = some 0 := by
  obtain ⟨k', rfl⟩ : ∃ k', k = k' + 1 := ⟨k - 1, by omega⟩
  rw [arithZ_succ]
  simp

/-- Every emitted frame's timestamp is its index divided by the fps. -/
theorem extract_frames_timestamp (src : VideoSource) (interval : ℚ)
    (hop : src.opened = true) (hfps : src.fps ≠ 0) :
    ∀ fd ∈ extract_frames src interval,
      fd.timestamp = (fd.frame_index : ℚ) / src.fps := by
  intro fd hfd
  unfold extract_frames at hfd
  rw [if_neg (by simp [hop]), if_neg hfps] at hfd
  simp only [List.mem_map] at hfd
  obtain ⟨n, _, rfl⟩ := hfd
  rfl

theorem le_foldl_max (l : List ℕ) : ∀ a, a ≤ l.foldl max a := by
  induction l with
  | nil => intro a; exact le_refl a
  | cons h t ih =>
    intro a
    exact le_trans (le_max_left a h) (ih (max a h))

theorem foldl_max_le_of_mem (l : List ℕ) : ∀ a x, x ∈ l → x ≤ l.foldl max a := by
  induction l with
  | nil => intro a x hx; cases hx
  | cons h t ih =>
    intro a x hx
    rcases List.mem_cons.mp hx with rfl | hx
    · exact le_trans (le_max_right a x) (le_foldl_max t (max a x))
    · exact ih (max a h) x hx

theorem foldl_max_mem (l : List ℕ) : ∀ a, l.foldl max a ∈ a :: l := by
  induction l with
  | nil => intro a; simp
  | cons h t ih =>
    intro a
    have := ih (max a h)
    rcases List.mem_cons.mp this with heq | hmem
    · simp only [List.foldl_cons]
      rw [heq]
      rcases max_choice a h with hc | hc
      · rw [hc]; simp
      · rw [hc]; simp
    · simp only [List.foldl_cons]
      exact List.mem_cons_of_mem a (List.mem_cons_of_mem h hmem)

theorem foldl_min_le (l : List ℕ) : ∀ a, l.foldl min a ≤ a := by
  induction l with
  | nil => intro a; exact le_refl a
  | cons h t ih =>
    intro a
    exact le_trans (ih (min a h)) (min_le_left a h)

theorem foldl_min_le_of_mem (l : List ℕ) : ∀ a x, x ∈ l → l.foldl min a ≤ x := by
  induction l with
  | nil => intro a x hx; cases hx
  | cons h t ih =>
    intro a x hx
    rcases List.mem_cons.mp hx with rfl | hx
    · exact le_trans (foldl_min_le t (min a x)) (min_le_right a x)
    · exact ih (min a h) x hx

theorem foldl_min_mem (l : List ℕ) : ∀ a, l.foldl min a ∈ a :: l := by
  induction l with
  | nil => intro a; simp
  | cons h t ih =>
    intro a
    have := ih (min a h)
    rcases List.mem_cons.mp this with heq | hmem
    · simp only [List.foldl_cons]
      rw [heq]
      rcases min_choice a h with hc | hc
      · rw [hc]; simp
      · rw [hc]; simp
    · simp only [List.foldl_cons]
      exact List.mem_cons_of_mem a (List.mem_cons_of_mem h hmem)

theorem le_pyMaxList (l : List ℕ) (x : ℕ) (hx : x ∈ l) : x ≤ pyMaxList l := by
  cases l with
  | nil => cases hx
  | cons h t =>
    rcases List.mem_cons.mp hx with rfl | hx
    · exact le_foldl_max t x
    · exact foldl_max_le_of_mem t h x hx

theorem pyMaxList_mem (l : List ℕ) (hl : l ≠ []) : pyMaxList l ∈ l := by
  cases l with
  | nil => exact absurd rfl hl
  | cons h t => exact foldl_max_mem t h

theorem pyMinList_le (l : List ℕ) (x : ℕ) (hx : x ∈ l) : pyMinList l ≤ x := by
  cases l with
  | nil => cases hx
  | cons h t =>
    rcases List.mem_cons.mp hx with rfl | hx
    · exact foldl_min_le t x
    · exact foldl_min_le_of_mem t h x hx

theorem pyMinList_mem (l : List ℕ) (hl : l ≠ []) : pyMinList l ∈ l := by
  cases l with
  | nil => exact absurd rfl hl
  | cons h t => exact foldl_min_mem t h

theorem pyInt_mul_30_5 : pyInt ((150 : ℚ)) = 150 := by norm_num [pyInt]

/-- The sample loop of Scenario A, evaluated. -/
theorem scenarioA_sampleLoop : sampleLoop 900 150 901 0 = [0, 150, 300, 450, 600, 750] := by
  decide

/-- The emitted indices of Scenario A: six frames, including index 750. -/
theorem scenarioA_indices :
    emittedIndices scenarioSrc 5 = [0, 150, 300, 450, 600, 750] := by
  unfold emittedIndices extract_frames scenarioSrc
  norm_num [pyInt_mul_30_5]
  rw [scenarioA_sampleLoop]
  simp [Function.comp_def]

/-- The emitted timestamps of Scenario A: 0, 5, 10, 15, 20 and 25 seconds. -/
theorem scenarioA_timestamps :
    (extract_frames scenarioSrc 5).map FrameData.timestamp = [0, 5, 10, 15, 20, 25] := by
  unfold extract_frames scenarioSrc
  norm_num [pyInt_mul_30_5]
  rw [scenarioA_sampleLoop]
  simp [Function.comp_def]
  norm_num

/-- C2, counterexample.  The claim states the step is
`round(fps * interval_seconds)` floored at 1, so the loop always
advances and terminates.  The source computes
`frame_interval = int(fps * interval_seconds)` with no floor
(src/video_processor.py line 39): at fps = 3/10 and interval 1 the code's
step is 0, not the claimed `max 1 (round 3/10) = 1`, and with step 0 a
10-frame source never satisfies an exit condition of the loop. -/
theorem sampler_step_cex :
    pyInt ((3/10 : ℚ) * 1) = 0
    ∧ pyInt ((3/10 : ℚ) * 1) ≠ max 1 (pyRound ((3/10 : ℚ) * 1))
    ∧ ¬ loopExits 10 (pyInt ((3/10 : ℚ) * 1)) := by
  have h1 : pyInt ((3/10 : ℚ) * 1) = 0 := by norm_num [pyInt]
  have h2 : pyRound ((3/10 : ℚ) * 1) = 0 := by norm_num [pyRound]
  refine ⟨h1, ?_, ?_⟩
  · rw [h1, h2]
    decide
  · rw [h1]
    exact not_loopExits_of_step_zero 10 (by omega)

/-- C2, amended.  The Frame Sampler derives its step as
`int(fps * interval_seconds)` (truncation toward zero, no floor of 1).
Whenever `fps * interval_seconds ≥ 1` the step is at least 1 and the
sampling loop advances and exits; when `0 ≤ fps * interval_seconds < 1`
the step truncates to 0 and the loop of a source with at least one frame
never exits. -/
theorem sampler_step_amended : ∀ (fps interval_seconds : ℚ) (total : ℕ),
    (1 ≤ fps * interval_seconds →
      1 ≤ pyInt (fps * interval_seconds)
      ∧ loopExits total (pyInt (fps * interval_seconds)))
    ∧ (0 ≤ fps * interval_seconds → fps * interval_seconds < 1 →
      pyInt (fps * interval_seconds) = 0
      ∧ (1 ≤ total → ¬ loopExits total (pyInt (fps * interval_seconds)))) := by
  intro fps interval_seconds total
  constructor
  · intro h
    have h1 := one_le_pyInt_of_one_le _ h
    exact ⟨h1, loopExits_of_one_le_step total _ h1⟩
  · intro h0 h1
    have hz := pyInt_eq_zero_of_lt_one _ h0 h1
    refine ⟨hz, fun ht => ?_⟩
    rw [hz]
    exact not_loopExits_of_step_zero total ht

/-- Witness for `sampler_step_amended` at fps = 30, interval = 5 s,
900 frames. -/
theorem sampler_step_amended_witness :
    1 ≤ pyInt ((30 : ℚ) * 5) ∧ loopExits 900 (pyInt ((30 : ℚ) * 5)) :=
  (sampler_step_amended 30 5 900).1 (by norm_num)

/-- C3, counterexample.  The claim states the sampler fails with a
`SourceUnavailable` error rather than returning a normal empty result.
`extract_frames` has no error channel at all (return type
`List FrameData`): an unopenable source and an opened source with zero
frames both return the plain empty list (src/video_processor.py
lines 27-29 and 48-50). -/
theorem source_unavailable_cex :
    extract_frames { opened := false, fps := 30, total_frames := 900 } 5
      = ([] : List FrameData)
    ∧ extract_frames { opened := true, fps := 30, total_frames := 0 } 5
      = ([] : List FrameData) := by
  constructor
  · rfl
  · unfold extract_frames
    norm_num
    rw [sampleLoop]
    norm_num

/-- C3, amended.  When the source cannot be opened or has zero frames,
`extract_frames` signals this by returning the empty list (not a raised
error); the caller (`analyze_sample_video`) treats the empty list as
failure, reports an error message, and returns before any persistence,
so the database is unchanged. -/
theorem source_unavailable_amended : ∀ (src : VideoSource) (interval_seconds : ℚ)
    (filename : String) (file_size_mb : ℚ) (frame_interval : ℕ)
    (detect : ℕ → FrameData → Except String (List Detection)) (db : DB)
    (failAt : Option SaveFailure),
    src.opened = false ∨ src.total_frames = 0 →
    extract_frames src interval_seconds = []
    ∧ run_sample_pipeline src interval_seconds filename file_size_mb frame_interval
        detect db failAt
      = (.error "Could not extract frames from sample video.", db) := by
  intro src interval_seconds filename file_size_mb frame_interval detect db failAt h
  have hext : extract_frames src interval_seconds = [] := by
    rcases h with h | h
    · unfold extract_frames
      rw [if_pos (by simp [h])]
    · unfold extract_frames
      by_cases hop : src.opened
      · rw [if_neg (by simp [hop])]
        by_cases hfps : src.fps = 0
        · rw [if_pos hfps]
        · rw [if_neg hfps]
          simp only [h]
          rw [sampleLoop]
          norm_num
      · rw [if_pos (by simp [hop])]
  refine ⟨hext, ?_⟩
  unfold run_sample_pipeline
  rw [hext]
  rfl

/-- Witness for `source_unavailable_amended`: an unopenable source. -/
theorem source_unavailable_amended_witness :
    extract_frames { opened := false, fps := 30, total_frames := 900 } 5 = []
    ∧ run_sample_pipeline { opened := false, fps := 30, total_frames := 900 } 5
        "v.mp4" 1 5 (fun _ _ => .ok []) { parents := [], children := [], nextId := 1 } none
      = (.error "Could not extract frames from sample video.",
         { parents := [], children := [], nextId := 1 }) :=
  source_unavailable_amended _ 5 "v.mp4" 1 5 (fun _ _ => .ok [])
    { parents := [], children := [], nextId := 1 } none (Or.inl rfl)

/-- C4, counterexample.  Scenario A of the claim lists indices
0, 150, 300, 450, 600 for a 30-second 30 fps video sampled every 5 s;
the code also emits index 750 (750 < 900, so the loop reads it before
the advanced position 900 triggers the exit). -/
theorem sampler_scenarioA_cex :
    emittedIndices scenarioSrc 5 ≠ [0, 150, 300, 450, 600]
    ∧ emittedIndices scenarioSrc 5 = [0, 150, 300, 450, 600, 750] := by
  refine ⟨?_, scenarioA_indices⟩
  rw [scenarioA_indices]
  decide

/-- C4, amended.  On every successful sampling run (source opened,
nonzero fps, step at least 1) the emitted frame indices are exactly the
nonnegative multiples of `int(fps * interval_seconds)` strictly below
`total_frames`, strictly increasing and starting at 0, and every frame's
timestamp is its index divided by fps.  Scenario A (30 s at 30 fps,
every 5 s) yields indices 0, 150, 300, 450, 600, 750 with timestamps
0, 5, 10, 15, 20, 25. -/
theorem sampler_emitted_indices :
    (∀ (src : VideoSource) (interval_seconds : ℚ),
      src.opened = true → src.fps ≠ 0 → 1 ≤ pyInt (src.fps * interval_seconds) →
      (∀ j : ℤ, j ∈ emittedIndices src interval_seconds ↔
          0 ≤ j ∧ j < (src.total_frames : ℤ) ∧ pyInt (src.fps * interval_seconds) ∣ j)
      ∧ List.Chain' (· < ·) (emittedIndices src interval_seconds)
      ∧ (1 ≤ src.total_frames → (emittedIndices src interval_seconds).head? = some 0)
      ∧ (∀ fd ∈ extract_frames src interval_seconds,
          fd.timestamp = (fd.frame_index : ℚ) / src.fps))
    ∧ emittedIndices scenarioSrc 5 = [0, 150, 300, 450, 600, 750]
    ∧ (extract_frames scenarioSrc 5).map FrameData.timestamp = [0, 5, 10, 15, 20, 25] := by
  refine ⟨?_, scenarioA_indices, scenarioA_timestamps⟩
  intro src interval_seconds hop hfps hstep
  have hs1 : 1 ≤ (pyInt (src.fps * interval_seconds)).toNat := by omega
  have hscast : pyInt (src.fps * interval_seconds)
      = ((pyInt (src.fps * interval_seconds)).toNat : ℤ) :=
    (Int.toNat_of_nonneg (by omega)).symm
  have hidx := extract_frames_indices src interval_seconds hop hfps hstep
  refine ⟨?_, ?_, ?_, extract_frames_timestamp src interval_seconds hop hfps⟩
  · intro j
    rw [hidx, mem_arithZ_iff _ _ hs1 j, ← hscast]
  · rw [hidx]
    exact arithZ_chain _ _ _ hs1
  · intro htot
    rw [hidx]
    exact arithZ_head _ _ (ceilDiv_pos _ _ hs1 htot)

/-- Witness for `sampler_emitted_indices` at Scenario A's source:
index 150 is emitted (a multiple of the step below 900). -/
theorem sampler_emitted_indices_witness :
    (150 : ℤ) ∈ emittedIndices scenarioSrc 5 := by
  have h := (sampler_emitted_indices.1 scenarioSrc 5 rfl (by norm_num [scenarioSrc])
    (by norm_num [scenarioSrc, pyInt])).1 150
  rw [h]
  refine ⟨by norm_num, by norm_num [scenarioSrc], ?_⟩
  have hp : pyInt ((scenarioSrc.fps) * 5) = 150 := by norm_num [scenarioSrc, pyInt]
  rw [hp]

/-- C1, confirmed.  For every `frame_results` list the Aggregator's
summary fields satisfy: `total_frames` is the length,
`total_detections` the sum of per-frame counts, `max_in_frame` /
`min_in_frame` a member of the counts bounding all of them (or 0 for the
empty list), and `avg_per_frame` is `total_detections / total_frames`
(0 when there are no frames).  Scenario D ([2, 0, 3, 1]) yields
total_detections 6, avg 3/2, max 3, min 0; the empty list yields the
all-zero summary rather than an error. -/
theorem aggregator_summary_fields :
    (∀ results : List SaveRec,
      (summaryOf results).total_frames = results.length
      ∧ (summaryOf results).total_detections = (results.map SaveRec.medibox_count).sum
      ∧ ((summaryOf results).avg_per_frame =
          if 0 < (summaryOf results).total_frames then
            ((summaryOf results).total_detections : ℚ) / ((summaryOf results).total_frames : ℚ)
          else 0)
      ∧ (results ≠ [] →
          (summaryOf results).max_in_frame ∈ results.map SaveRec.medibox_count
          ∧ ∀ c ∈ results.map SaveRec.medibox_count, c ≤ (summaryOf results).max_in_frame)
      ∧ (results ≠ [] →
          (summaryOf results).min_in_frame ∈ results.map SaveRec.medibox_count
          ∧ ∀ c ∈ results.map SaveRec.medibox_count, (summaryOf results).min_in_frame ≤ c)
      ∧ (results = [] → summaryOf results = ⟨0, 0, 0, 0, 0⟩))
    ∧ summaryOf scenarioD = ⟨4, 6, 3/2, 3, 0⟩
    ∧ summaryOf [] = ⟨0, 0, 0, 0, 0⟩ := by
  refine ⟨?_, ?_, rfl⟩
  · intro results
    have hmapne : results ≠ [] → results.map SaveRec.medibox_count ≠ [] := by
      intro h
      simpa using h
    refine ⟨rfl, rfl, rfl, ?_, ?_, ?_⟩
    · intro h
      exact ⟨pyMaxList_mem _ (hmapne h), fun c hc => le_pyMaxList _ c hc⟩
    · intro h
      exact ⟨pyMinList_mem _ (hmapne h), fun c hc => pyMinList_le _ c hc⟩
    · intro h
      subst h
      rfl
  · simp [summaryOf, scenarioD, pyMaxList, pyMinList]
    norm_num

/-- Witness for `aggregator_summary_fields` at Scenario D: the maximum
3 is one of the counts and bounds them all. -/
theorem aggregator_summary_fields_witness :
    (summaryOf scenarioD).max_in_frame ∈ scenarioD.map SaveRec.medibox_count
    ∧ ∀ c ∈ scenarioD.map SaveRec.medibox_count,
        c ≤ (summaryOf scenarioD).max_in_frame :=
  (aggregator_summary_fields.1 scenarioD).2.2.2.1 (by simp [scenarioD])

/-- C8, confirmed.  For every non-empty `frame_results` list the average
per frame lies between the minimum and maximum per-frame counts. -/
theorem aggregator_avg_between_min_max :
    ∀ results : List SaveRec, results ≠ [] →
      ((summaryOf results).min_in_frame : ℚ) ≤ (summaryOf results).avg_per_frame
      ∧ (summaryOf results).avg_per_frame ≤ ((summaryOf results).max_in_frame : ℚ) := by
  intro results hne
  set counts := results.map SaveRec.medibox_count with hcounts
  have hlen : 0 < results.length := List.length_pos.mpr hne
  have hlenc : counts.length = results.length := by
    rw [hcounts, List.length_map]
  have havg : (summaryOf results).avg_per_frame = (counts.sum : ℚ) / (results.length : ℚ) := by
    unfold summaryOf
    rw [if_pos hlen]
  have hlenq : (0 : ℚ) < (results.length : ℚ) := by exact_mod_cast hlen
  constructor
  · rw [havg]
    rw [le_div_iff₀ hlenq]
    have hnat : results.length * pyMinList counts ≤ counts.sum := by
      have := List.card_nsmul_le_sum counts (pyMinList counts)
        (fun x hx => pyMinList_le counts x hx)
      rw [smul_eq_mul] at this
      rw [← hlenc]
      exact this
    calc ((summaryOf results).min_in_frame : ℚ) * (results.length : ℚ)
        = ((results.length * pyMinList counts : ℕ) : ℚ) := by
          unfold summaryOf
          push_cast
          ring
      _ ≤ (counts.sum : ℚ) := by exact_mod_cast hnat
  · rw [havg]
    rw [div_le_iff₀ hlenq]
    have hnat : counts.sum ≤ results.length * pyMaxList counts := by
      have := List.sum_le_card_nsmul counts (pyMaxList counts)
        (fun x hx => le_pyMaxList counts x hx)
      rw [smul_eq_mul] at this
      rw [← hlenc]
      exact this
    calc (counts.sum : ℚ) ≤ ((results.length * pyMaxList counts : ℕ) : ℚ) := by
          exact_mod_cast hnat
      _ = ((summaryOf results).max_in_frame : ℚ) * (results.length : ℚ) := by
          unfold summaryOf
          push_cast
          ring

/-- Witness for `aggregator_avg_between_min_max` at Scenario D:
0 ≤ 3/2 ≤ 3. -/
theorem aggregator_avg_between_min_max_witness :
    ((summaryOf scenarioD).min_in_frame : ℚ) ≤ (summaryOf scenarioD).avg_per_frame
    ∧ (summaryOf scenarioD).avg_per_frame ≤ ((summaryOf scenarioD).max_in_frame : ℚ) :=
  aggregator_avg_between_min_max scenarioD (by simp [scenarioD])

/-- C7, counterexample.  The claim states `save` is atomic: either the
parent summary and all child rows are persisted together or nothing is.
The source commits twice (src/database.py lines 95 and 110); a failure
at the second commit leaves the already-committed parent row in the
database with no child rows: from an empty store, saving a one-frame run
with a failure at the children commit returns an error, yet one parent
row and zero child rows are persisted. -/
theorem save_atomicity_cex :
    (save_analysis_results { parents := [], children := [], nextId := 1 }
      "v.mp4" 1 5
      [{ frame_number := 0, timestamp := 0, medibox_count := 2, detections := [] }]
      none (some .atChildrenCommit)).1 = .error "PersistenceError"
    ∧ (save_analysis_results { parents := [], children := [], nextId := 1 }
      "v.mp4" 1 5
      [{ frame_number := 0, timestamp := 0, medibox_count := 2, detections := [] }]
      none (some .atChildrenCommit)).2.parents.length = 1
    ∧ (save_analysis_results { parents := [], children := [], nextId := 1 }
      "v.mp4" 1 5
      [{ frame_number := 0, timestamp := 0, medibox_count := 2, detections := [] }]
      none (some .atChildrenCommit)).2.children = [] :=
  ⟨rfl, rfl, rfl⟩

/-- C7, amended.  `save` is atomic per commit, not per run: a failure at
the first commit persists nothing, a successful run persists the parent
and all its children, but a failure between the two commits leaves the
parent row persisted with none of its frame-level children (the second
rollback discards only the staged child rows). -/
theorem save_atomicity_amended : ∀ (db : DB) (filename : String)
    (file_size_mb : ℚ) (frame_interval : ℕ) (results : List SaveRec)
    (processing_time : Option ℚ),
    save_analysis_results db filename file_size_mb frame_interval results
        processing_time none
      = (.ok db.nextId,
         { parents := db.parents
             ++ [parentRowOf db.nextId filename file_size_mb frame_interval results processing_time],
           children := db.children ++ results.map (childOf db.nextId),
           nextId := db.nextId + 1 })
    ∧ save_analysis_results db filename file_size_mb frame_interval results
        processing_time (some .atParentCommit)
      = (.error "PersistenceError", db)
    ∧ save_analysis_results db filename file_size_mb frame_interval results
        processing_time (some .atChildrenCommit)
      = (.error "PersistenceError",
         { parents := db.parents
             ++ [parentRowOf db.nextId filename file_size_mb frame_interval results processing_time],
           children := db.children,
           nextId := db.nextId + 1 }) := by
  intro db filename file_size_mb frame_interval results processing_time
  exact ⟨rfl, rfl, rfl⟩

/-- C9, confirmed.  Round-trip through the Result Store: if `save`
succeeds on a store whose existing parent ids are all below the next
generated id (the autoincrement invariant), then retrieving the returned
id yields a row carrying exactly the run's `frame_results` (in order)
and the derived summary fields. -/
theorem save_get_round_trip : ∀ (db : DB) (filename : String)
    (file_size_mb : ℚ) (frame_interval : ℕ) (results : List SaveRec)
    (processing_time : Option ℚ) (vid : ℕ) (db' : DB),
    (∀ p ∈ db.parents, p.id < db.nextId) →
    save_analysis_results db filename file_size_mb frame_interval results
        processing_time none = (.ok vid, db') →
    get_analysis_by_id db' vid
      = some (parentRowOf db.nextId filename file_size_mb frame_interval results processing_time)
    ∧ (parentRowOf db.nextId filename file_size_mb frame_interval results processing_time).analysis_results
      = results
    ∧ (parentRowOf db.nextId filename file_size_mb frame_interval results processing_time).total_frames
      = (summaryOf results).total_frames
    ∧ (parentRowOf db.nextId filename file_size_mb frame_interval results processing_time).total_detections
      = (summaryOf results).total_detections
    ∧ (parentRowOf db.nextId filename file_size_mb frame_interval results processing_time).avg_per_frame
      = (summaryOf results).avg_per_frame
    ∧ (parentRowOf db.nextId filename file_size_mb frame_interval results processing_time).max_in_frame
      = (summaryOf results).max_in_frame
    ∧ (parentRowOf db.nextId filename file_size_mb frame_interval results processing_time).min_in_frame
      = (summaryOf results).min_in_frame := by
  intro db filename file_size_mb frame_interval results processing_time vid db' hfresh hsave
  have hdef : save_analysis_results db filename file_size_mb frame_interval results
      processing_time none
      = (.ok db.nextId,
         { parents := db.parents
             ++ [parentRowOf db.nextId filename file_size_mb frame_interval results processing_time],
           children := db.children ++ results.map (childOf db.nextId),
           nextId := db.nextId + 1 }) := rfl
  rw [hdef] at hsave
  obtain ⟨hok, hdbeq⟩ := Prod.mk.injEq _ _ _ _ ▸ hsave
  have hvid : vid = db.nextId := (Except.ok.inj hok).symm
  subst hvid
  rw [← hdbeq]
  refine ⟨?_, rfl, rfl, rfl, rfl, rfl, rfl⟩
  unfold get_analysis_by_id
  simp only []
  rw [List.find?_append]
  have hnone : db.parents.find? (fun p => p.id == db.nextId) = none := by
    rw [List.find?_eq_none]
    intro p hp
    have := hfresh p hp
    simp only [beq_iff_eq]
    omega
  rw [hnone]
  simp [List.find?, parentRowOf]

/-- Witness for `save_get_round_trip`: saving Scenario D into an empty
store and reading id 1 back. -/
theorem save_get_round_trip_witness :
    get_analysis_by_id
        (save_analysis_results { parents := [], children := [], nextId := 1 }
          "v.mp4" 1 5 scenarioD none none).2 1
      = some (parentRowOf 1 "v.mp4" 1 5 scenarioD none)
    ∧ (parentRowOf 1 "v.mp4" 1 5 scenarioD none).analysis_results = scenarioD := by
  have h := save_get_round_trip { parents := [], children := [], nextId := 1 }
    "v.mp4" 1 5 scenarioD none 1
    (save_analysis_results { parents := [], children := [], nextId := 1 }
      "v.mp4" 1 5 scenarioD none none).2
    (by intro p hp; cases hp) rfl
  exact ⟨h.1, h.2.1⟩

theorem analyzeFramesLoop_get? (detect : ℕ → FrameData → Except String (List Detection)) :
    ∀ (frames : List FrameData) (start i : ℕ) (fd : FrameData),
      frames.get? i = some fd →
      (analyzeFramesLoop detect start frames).get? i = some (rowFor detect (start + i) fd) := by
  intro frames
  induction frames with
  | nil => intro start i fd h; cases h
  | cons f rest ih =>
    intro start i fd h
    cases i with
    | zero =>
      cases h
      rfl
    | succ k =>
      have := ih (start + 1) k fd h
      simpa [analyzeFramesLoop, Nat.add_assoc, Nat.add_comm 1 k] using this

theorem analyzeFramesLoop_length (detect : ℕ → FrameData → Except String (List Detection)) :
    ∀ (frames : List FrameData) (start : ℕ),
      (analyzeFramesLoop detect start frames).length = frames.length := by
  intro frames
  induction frames with
  | nil => intro start; rfl
  | cons f rest ih =>
    intro start
    simp [analyzeFramesLoop, ih (start + 1)]

theorem analyzeSampleLoop_error (detect : ℕ → FrameData → Except String (List Detection)) :
    ∀ (frames : List FrameData) (start i : ℕ) (fd : FrameData) (e : String),
      frames.get? i = some fd →
      detect (start + i) fd = .error e →
      (∀ j fdj, j < i → frames.get? j = some fdj → isOkE (detect (start + j) fdj) = true) →
      analyzeSampleLoop detect start frames = .error e := by
  intro frames
  induction frames with
  | nil => intro start i fd e h; cases h
  | cons f rest ih =>
    intro start i fd e hget hdet hprev
    cases i with
    | zero =>
      cases hget
      simp only [analyzeSampleLoop]
      rw [show start + 0 = start from rfl] at hdet
      rw [hdet]
      rfl
    | succ k =>
      have hok0 : isOkE (detect (start + 0) f) = true := hprev 0 f (Nat.succ_pos k) rfl
      rcases hd0 : detect start f with e0 | dets0
      · rw [show start + 0 = start from rfl, hd0] at hok0
        simp [isOkE] at hok0
      · have hrec := ih (start + 1) k fd e hget
          (by rw [show start + 1 + k = start + (k + 1) from by omega]; exact hdet)
          (by
            intro j fdj hj hgj
            have := hprev (j + 1) fdj (by omega) hgj
            rw [show start + 1 + j = start + (j + 1) from by omega]
            exact this)
        simp only [analyzeSampleLoop]
        rw [hd0, hrec]
        rfl

/-- C5, counterexample.  The claim states that for EVERY run a single
frame's detection failure (e.g. HTTP 500) does not abort the run.  Its
own sources include `analyze_sample_video` (src/app.py line 441), whose
per-frame call has no `try/except`: with two frames whose second
detection call fails, `analyze_video` degrades the failing frame to a
zero-count row, but `analyze_sample_video` aborts the whole run and
discards the first frame's result. -/
theorem per_frame_failure_cex :
    analyze_video [{ frame_index := 0, timestamp := 0 }, { frame_index := 150, timestamp := 5 }]
        (fun i _ => if i = 0 then .ok [sampleDetection]
          else .error "Detection failed: API request failed with status 500")
      = .ok [{ frame_index := 0, timestamp := 0, detections := [sampleDetection], medibox_count := 1 },
             { frame_index := 1, timestamp := 5, detections := [], medibox_count := 0 }]
    ∧ analyze_sample_video
        [{ frame_index := 0, timestamp := 0 }, { frame_index := 150, timestamp := 5 }]
        (fun i _ => if i = 0 then .ok [sampleDetection]
          else .error "Detection failed: API request failed with status 500")
      = .error "Detection failed: API request failed with status 500" :=
  ⟨rfl, rfl⟩

/-- C5, amended.  In `analyze_video` a single frame's detection failure
does not abort the run: the failing frame becomes a zero-count row with
an empty detections list and every other frame is processed normally
(row i is `rowFor detect i` of frame i).  In `analyze_sample_video`,
however, the first failing frame aborts the whole run with that error. -/
theorem per_frame_failure_amended :
    (∀ (frames : List FrameData) (detect : ℕ → FrameData → Except String (List Detection)),
      frames ≠ [] →
      analyze_video frames detect = .ok (analyzeFramesLoop detect 0 frames)
      ∧ (analyzeFramesLoop detect 0 frames).length = frames.length
      ∧ (∀ i fd, frames.get? i = some fd →
          (analyzeFramesLoop detect 0 frames).get? i = some (rowFor detect i fd))
      ∧ (∀ i fd e, detect i fd = .error e →
          rowFor detect i fd
            = { frame_index := i, timestamp := fd.timestamp,
                detections := [], medibox_count := 0 }))
    ∧ (∀ (frames : List FrameData) (detect : ℕ → FrameData → Except String (List Detection))
        (i : ℕ) (fd : FrameData) (e : String),
        frames.get? i = some fd →
        detect i fd = .error e →
        (∀ j fdj, j < i → frames.get? j = some fdj → isOkE (detect j fdj) = true) →
        analyze_sample_video frames detect = .error e) := by
  constructor
  · intro frames detect hne
    refine ⟨?_, analyzeFramesLoop_length detect frames 0, ?_, ?_⟩
    · unfold analyze_video
      rw [if_neg (by simpa [List.isEmpty_iff] using hne)]
    · intro i fd h
      simpa using analyzeFramesLoop_get? detect frames 0 i fd h
    · intro i fd e hdet
      unfold rowFor
      rw [hdet]
  · intro frames detect i fd e hget hdet hprev
    unfold analyze_sample_video
    have hne : frames ≠ [] := by
      intro h
      subst h
      cases hget
    rw [if_neg (by simpa [List.isEmpty_iff] using hne)]
    exact analyzeSampleLoop_error detect frames 0 i fd e hget
      (by simpa using hdet) (by simpa using hprev)

/-- Witness for `per_frame_failure_amended`: with the second of two
frames failing, `analyze_video` is total and `analyze_sample_video`
aborts. -/
theorem per_frame_failure_amended_witness :
    analyze_video [{ frame_index := 0, timestamp := 0 }, { frame_index := 150, timestamp := 5 }]
        (fun i _ => if i = 0 then .ok [sampleDetection]
          else .error "Detection failed: API request failed with status 500")
      = .ok (analyzeFramesLoop
          (fun i _ => if i = 0 then .ok [sampleDetection]
            else .error "Detection failed: API request failed with status 500") 0
          [{ frame_index := 0, timestamp := 0 }, { frame_index := 150, timestamp := 5 }])
    ∧ analyze_sample_video
        [{ frame_index := 0, timestamp := 0 }, { frame_index := 150, timestamp := 5 }]
        (fun i _ => if i = 0 then .ok [sampleDetection]
          else .error "Detection failed: API request failed with status 500")
      = .error "Detection failed: API request failed with status 500" := by
  constructor
  · exact (per_frame_failure_amended.1 _ _ (by simp)).1
  · exact per_frame_failure_amended.2 _ _ 1 { frame_index := 150, timestamp := 5 }
      "Detection failed: API request failed with status 500" rfl rfl
      (by
        intro j fdj hj hgj
        interval_cases j
        cases hgj
        rfl)

theorem detailOfDet_ok (i : ℕ) (d : Detection) (l : List ℤ)
    (hb : d.bounding_box = some l) (hl : l.length = 4) :
    ∃ s, detailOfDet i d = .ok s := by
  rcases l with _ | ⟨a, l⟩
  · simp at hl
  rcases l with _ | ⟨b, l⟩
  · simp at hl
  rcases l with _ | ⟨c, l⟩
  · simp at hl
  rcases l with _ | ⟨e, l⟩
  · simp at hl
  rcases l with _ | ⟨f, l⟩
  · refine ⟨"Object_" ++ toString (i + 1) ++ ":(" ++ toString a ++ "," ++ toString b
      ++ "," ++ toString c ++ "," ++ toString e ++ "):conf_" ++ fmt3 (d.score.getD 0), ?_⟩
    unfold detailOfDet
    rw [hb]
    simp
  · simp at hl

theorem detailsFrom_ok (dets : List Detection) :
    ∀ start : ℕ,
      (∀ d ∈ dets, ∃ l, d.bounding_box = some l ∧ l.length = 4) →
      ∃ ds, detailsFrom start dets = .ok ds ∧ ds.length = dets.length := by
  induction dets with
  | nil => intro start _; exact ⟨[], rfl, rfl⟩
  | cons d rest ih =>
    intro start h
    obtain ⟨l, hb, hl⟩ := h d (List.mem_cons_self _ _)
    obtain ⟨s, hs⟩ := detailOfDet_ok start d l hb hl
    obtain ⟨ds, hds, hdl⟩ := ih (start + 1) (fun d' hd' => h d' (List.mem_cons_of_mem _ hd'))
    refine ⟨s :: ds, ?_, by simp [hdl]⟩
    simp only [detailsFrom, hs, hds]
    rfl

theorem rowsOf_ok (results : List ExportRec) :
    (∀ r ∈ results, ∀ d ∈ r.detections, ∃ l, d.bounding_box = some l ∧ l.length = 4) →
    ∃ rows, rowsOf results = .ok rows
      ∧ rows.length = results.length
      ∧ ∀ (i : ℕ) (r : ExportRec), results.get? i = some r →
          ∃ details : List String,
            rows.get? i = some [Cell.nat r.frame_index, Cell.rat r.timestamp,
              Cell.str (format_timestamp r.timestamp), Cell.nat r.playdough_count,
              Cell.str (String.intercalate ";" details)]
            ∧ detailsFrom 0 r.detections = .ok details
            ∧ details.length = r.detections.length := by
  induction results with
  | nil =>
    intro _
    exact ⟨[], rfl, rfl, fun i r hi => by cases hi⟩
  | cons r rest ih =>
    intro h
    obtain ⟨details, hdet, hdl⟩ :=
      detailsFrom_ok r.detections 0 (h r (List.mem_cons_self _ _))
    obtain ⟨rows, hrows, hlen, hget⟩ :=
      ih (fun r' hr' d hd => h r' (List.mem_cons_of_mem _ hr') d hd)
    refine ⟨[Cell.nat r.frame_index, Cell.rat r.timestamp,
        Cell.str (format_timestamp r.timestamp), Cell.nat r.playdough_count,
        Cell.str (String.intercalate ";" details)] :: rows, ?_, by simp [hlen], ?_⟩
    · simp only [rowsOf, rowOfExportRec, hdet, hrows]
      rfl
    · intro i r' hi
      cases i with
      | zero =>
        cases hi
        exact ⟨details, rfl, hdet, hdl⟩
      | succ k =>
        exact hget k r' hi

/-- C10, confirmed.  For every results list in which every detection
carries a `bounding_box` of exactly 4 elements, `export_results_to_csv`
succeeds and returns the header row followed by exactly one data row per
frame result in input order; each data row carries the frame index, the
raw and formatted timestamp, the count, and a detail string joining one
`detailOfDet` fragment per detection in order (the fragment shows the
four box coordinates and the score, with a missing score defaulting
to 0).  The 4-element precondition matters because `detailOfDet` indexes
positions 0-3 of the box unconditionally. -/
theorem export_csv_shape : ∀ results : List ExportRec,
    (∀ r ∈ results, ∀ d ∈ r.detections, ∃ l, d.bounding_box = some l ∧ l.length = 4) →
    ∃ rows, export_results_to_csv results = .ok (exportHeader :: rows)
      ∧ rows.length = results.length
      ∧ ∀ (i : ℕ) (r : ExportRec), results.get? i = some r →
          ∃ details : List String,
            rows.get? i = some [Cell.nat r.frame_index, Cell.rat r.timestamp,
              Cell.str (format_timestamp r.timestamp), Cell.nat r.playdough_count,
              Cell.str (String.intercalate ";" details)]
            ∧ detailsFrom 0 r.detections = .ok details
            ∧ details.length = r.detections.length := by
  intro results h
  obtain ⟨rows, hrows, hlen, hget⟩ := rowsOf_ok results h
  refine ⟨rows, ?_, hlen, hget⟩
  simp only [export_results_to_csv, hrows]
  rfl

/-- Witness for `export_csv_shape`: one frame result with one detection
whose box is [1, 2, 3, 4]. -/
theorem export_csv_shape_witness :
    ∃ rows, export_results_to_csv
        [{ frame_index := 0, timestamp := 15/2, playdough_count := 1,
           detections := [sampleDetection] }]
      = .ok (exportHeader :: rows)
      ∧ rows.length = 1 := by
  obtain ⟨rows, hok, hlen, _⟩ := export_csv_shape
    [{ frame_index := 0, timestamp := 15/2, playdough_count := 1,
       detections := [sampleDetection] }]
    (by
      intro r hr d hd
      simp only [List.mem_singleton] at hr
      subst hr
      simp only [List.mem_singleton] at hd
      subst hd
      exact ⟨[1, 2, 3, 4], rfl, rfl⟩)
  exact ⟨rows, hok, hlen⟩
